import Mathlib

set_option maxRecDepth 8000

/-!
Verification development for the embedded network gateway of the
blockbench MCP plugin: the byte-stream framer, the session router, the
response emitter (buffered and SSE paths) and the session registry.

The byte stream is modelled as `List Char` (one element per byte of the
connection buffer; the source decodes the buffer to a string before all
of the operations modelled here).  JavaScript-specific behaviour is
modelled explicitly: `parseInt` returns `none` for NaN, `subarray`
interprets negative indices relative to the buffer end and coerces NaN
to 0, object field assignment keeps insertion order, and `x || y`
falls back on the empty string.
-/

namespace Gateway

/-- Byte list of a string literal. -/
def str (s : String) : List Char := s.data

/-- ASCII lower-casing of a character, as used by toLowerCase on header names. -/
def asciiLower (c : Char) : Char :=
  if 'A' ≤ c ∧ c ≤ 'Z' then Char.ofNat (c.toNat + 32) else c

/-- Lower-case a byte list. -/
def lowerStr (s : List Char) : List Char := s.map asciiLower

/-- Whitespace recognised by trim and parseInt (ASCII subset). -/
def isWsChar (c : Char) : Bool :=
  c = ' ' || c = '\t' || c = '\n' || c = '\r' || c = '\x0b' || c = '\x0c'

/-- JavaScript String.prototype.trim on a byte list. -/
def jsTrim (s : List Char) : List Char :=
  ((s.dropWhile isWsChar).reverse.dropWhile isWsChar).reverse

/-- Decimal digit test. -/
def isDigitCh (c : Char) : Bool := decide ('0' ≤ c) && decide (c ≤ '9')

/-- Numeric value of a digit string. -/
def digitsVal (l : List Char) : Nat :=
  l.foldl (fun a c => a * 10 + (c.toNat - '0'.toNat)) 0

/-- JavaScript parseInt(s, 10): skip leading whitespace, optional sign,
then the longest digit run; no digits at all gives NaN, modelled as `none`. -/
def jsParseInt10 (s : List Char) : Option Int :=
  let s1 := s.dropWhile isWsChar
  let sign : Int := match s1 with
    | '-' :: _ => -1
    | _ => 1
  let s2 := match s1 with
    | '-' :: t => t
    | '+' :: t => t
    | _ => s1
  let digits := s2.takeWhile isDigitCh
  if digits = [] then none else some (sign * (digitsVal digits : Int))

/-- Does `pat` occur at the head of `l`? (String.prototype.startsWith.) -/
def startsWithList : List Char → List Char → Bool
  | [], _ => true
  | _ :: _, [] => false
  | p :: ps, x :: xs => p = x && startsWithList ps xs

/-- First index at which `pat` occurs in the list (Buffer.prototype.indexOf,
`none` for -1). -/
def findSub (pat : List Char) : List Char → Option Nat
  | [] => none
  | c :: t => if startsWithList pat (c :: t) then some 0 else (findSub pat t).map (· + 1)

/-- Fuelled split on a separator sequence (String.prototype.split semantics:
empty pieces are kept). -/
def splitSeqF (sep : List Char) : Nat → List Char → List (List Char)
  | 0, l => [l]
  | Nat.succ f, l =>
    match findSub sep l with
    | none => [l]
    | some i => l.take i :: splitSeqF sep f (l.drop (i + sep.length))

/-- String.prototype.split. -/
def jsSplit (sep l : List Char) : List (List Char) := splitSeqF sep (l.length + 1) l

/-- Lookup in a JavaScript object modelled as an insertion-ordered
association list (first match is the only match in well-formed objects). -/
def jsGet (m : List (List Char × List Char)) (k : List Char) : Option (List Char) :=
  (m.find? (fun p => p.1 = k)).map (fun p => p.2)

/-- Field assignment on a JavaScript object: overwrite in place, else append. -/
def jsSet (m : List (List Char × List Char)) (k v : List Char) :
    List (List Char × List Char) :=
  if m.any (fun p => p.1 = k) then
    m.map (fun p => if p.1 = k then (k, v) else p)
  else m ++ [(k, v)]

/-- The delete operator on a JavaScript object field. -/
def jsDelete (m : List (List Char × List Char)) (k : List Char) :
    List (List Char × List Char) :=
  m.filter (fun p => ¬ (p.1 = k))

/-- Resolve one `subarray` index: negative indices count from the end,
indices are clamped into the buffer (ECMAScript ToIntegerOrInfinity plus
clamping; the caller turns NaN into 0 before calling this). -/
def clampRel (i : Int) (len : Nat) : Nat :=
  if i < 0 then ((len : Int) + i).toNat else min i.toNat len

/-- Buffer.prototype.subarray with both indices. -/
def jsSubarray (l : List Char) (s e : Int) : List Char :=
  (l.drop (clampRel s l.length)).take (clampRel e l.length - clampRel s l.length)

/-- Buffer.prototype.subarray with only a start index. -/
def jsSubarrayFrom (l : List Char) (s : Int) : List Char :=
  l.drop (clampRel s l.length)

/-- NaN-to-zero coercion applied by subarray to its arguments. -/
def jsToInt (o : Option Int) : Int := o.getD 0

/-- The header/body separator searched for by the framer. -/
def SEPSEQ : List Char := ['\r', '\n', '\r', '\n']

/-- A line separator. -/
def CRLF : List Char := ['\r', '\n']

/-- One request extracted from the connection buffer (method, path,
normalised headers, body slice). -/
structure ParsedRequest where
  method : List Char
  path : Option (List Char)
  headers : List (List Char × List Char)
  body : List Char
deriving DecidableEq, Repr

/-- One header line: first colon splits the line, a colon index of 0 or a
missing colon drops the line; keys are trimmed and lower-cased, values
trimmed; later occurrences overwrite (object assignment). -/
def parseHeaderLine (acc : List (List Char × List Char)) (line : List Char) :
    List (List Char × List Char) :=
  match line.findIdx? (fun c => c = ':') with
  | none => acc
  | some ci =>
    if 0 < ci then
      jsSet acc (lowerStr (jsTrim (line.take ci))) (jsTrim (line.drop (ci + 1)))
    else acc

/-- Parse the header section: start line into method and path (split on
single spaces, path missing when the start line has one token), remaining
lines into the header object. -/
def parseHead (hs : List Char) :
    List Char × Option (List Char) × List (List Char × List Char) :=
  let lines := jsSplit CRLF hs
  let toks := jsSplit [' '] (lines.headD [])
  (toks.headD [], toks[1]?, (lines.drop 1).foldl parseHeaderLine [])

/-- The content length the framer computes:
parseInt(headers[content-length] or "0", 10); a missing header or an
empty value falls back on "0", any other unparsable value is NaN. -/
def contentLengthOf (headers : List (List Char × List Char)) : Option Int :=
  let raw := match jsGet headers (str "content-length") with
    | none => str "0"
    | some v => if v = [] then str "0" else v
  jsParseInt10 raw

/-- One iteration of the framing loop on the connection buffer: find the
header separator, parse the header section, compute the request end
(body start + content length) and either wait (`none`) or emit the
request together with the remaining buffer.  A NaN request end (second
match arm) never satisfies the wait comparison and is coerced to 0 by
subarray, so the request is emitted with an empty body and the buffer is
left in place.  The returned Bool records whether the computed request
end was negative (the case in which subarray indices become relative to
the buffer end). -/
def frameStep (buf : List Char) :
    Option (ParsedRequest × List Char × Bool) :=
  match findSub SEPSEQ buf with
  | none => none
  | some i =>
    match (contentLengthOf (parseHead (buf.take i)).2.2).map
        (fun n => ((i + 4 : Nat) : Int) + n) with
    | some e =>
      if (buf.length : Int) < e then none
      else
        some (⟨(parseHead (buf.take i)).1, (parseHead (buf.take i)).2.1,
            (parseHead (buf.take i)).2.2, jsSubarray buf ((i + 4 : Nat) : Int) e⟩,
          jsSubarrayFrom buf e, decide (e < 0))
    | none =>
      some (⟨(parseHead (buf.take i)).1, (parseHead (buf.take i)).2.1,
          (parseHead (buf.take i)).2.2, jsSubarray buf ((i + 4 : Nat) : Int) 0⟩,
        jsSubarrayFrom buf 0, false)

/-- Result of running the framing loop to quiescence on one buffer:
the emitted requests, the remaining buffer, whether the loop hit a
non-consuming iteration (which in the source spins forever re-emitting
the same request: NaN request end), and whether any iteration computed a
negative request end. -/
structure FrameRes where
  reqs : List ParsedRequest
  rest : List Char
  diverged : Bool
  negEnd : Bool
deriving DecidableEq, Repr

/-- Fuelled framing loop; fuel `length + 1` always suffices because every
consuming iteration strictly shrinks the buffer and a non-consuming
iteration stops the loop (recording divergence). -/
def frameAllF : Nat → List Char → FrameRes
  | 0, buf => ⟨[], buf, true, false⟩
  | Nat.succ f, buf =>
    match frameStep buf with
    | none => ⟨[], buf, false, false⟩
    | some (req, rest, ng) =>
      if rest.length < buf.length then
        ⟨req :: (frameAllF f rest).reqs, (frameAllF f rest).rest,
          (frameAllF f rest).diverged, ng || (frameAllF f rest).negEnd⟩
      else ⟨[req], buf, true, ng⟩

/-- Run the framing loop on a buffer until no further complete request is
available. -/
def frameAll (buf : List Char) : FrameRes := frameAllF (buf.length + 1) buf

/-- Arrival of one data chunk: append it to the remaining buffer and run
the framing loop again; once the loop has diverged it never consumes the
buffer again, so later chunks only accumulate. -/
def feedRes (r : FrameRes) (chunk : List Char) : FrameRes :=
  if r.diverged then ⟨r.reqs, r.rest ++ chunk, true, r.negEnd⟩
  else
    ⟨r.reqs ++ (frameAll (r.rest ++ chunk)).reqs, (frameAll (r.rest ++ chunk)).rest,
      (frameAll (r.rest ++ chunk)).diverged,
      r.negEnd || (frameAll (r.rest ++ chunk)).negEnd⟩

/-- Frame a byte stream delivered as a sequence of chunks. -/
def frameChunks (chunks : List (List Char)) : FrameRes :=
  chunks.foldl feedRes ⟨[], [], false, false⟩

/-- Whether a Request built from the framed request carries a body:
the source only attaches the body for methods other than GET and HEAD
and only when the body string is non-empty. -/
def requestInitBody (method body : List Char) : Option (List Char) :=
  if ¬ (method = str "GET") ∧ ¬ (method = str "HEAD") ∧ ¬ (body = []) then some body
  else none

end Gateway

namespace SessionMgr

/-- One registered session (timestamps are abstract ticks, the timer
handle is the identifier returned by setTimeout). -/
structure MSession where
  id : String
  connectedAt : Nat
  lastActivity : Nat
  timeoutHandle : Option Nat
  clientName : Option String
  clientVersion : Option String
deriving DecidableEq, Repr

/-- State of the SessionManager: the session map in insertion order, the
listener set (listeners named by numbers), whether a removal callback is
installed, and the next timer handle setTimeout would return. -/
structure MgrState where
  sessions : List (String × MSession)
  listeners : List Nat
  removalCallback : Bool
  nextTimer : Nat
deriving DecidableEq, Repr

/-- Observable events of one SessionManager operation, in order. -/
inductive MEv where
  | clearTimer (h : Nat)
  | setTimer (sid : String) (h : Nat)
  | notify (l : Nat) (snap : List MSession)
  | listenerError (l : Nat)
  | logLine
  | invokeCallback (sid : String)
  | callbackError
deriving DecidableEq, Repr

/-- getAll: the values of the session map in insertion order. -/
def getAll (s : MgrState) : List MSession := s.sessions.map (fun p => p.2)

/-- has: key membership in the session map. -/
def hasSession (s : MgrState) (sid : String) : Bool :=
  s.sessions.any (fun p => p.1 = sid)

/-- notifyListeners: take one snapshot, then call every listener on it;
each call is wrapped in try/catch, a throwing listener (as prescribed by
the throw profile `lt`) only adds an error log and the iteration
continues. -/
def notifyListeners (lt : Nat → Bool) (s : MgrState) : List MEv :=
  s.listeners.flatMap (fun l =>
    MEv.notify l (getAll s) :: (if lt l then [MEv.listenerError l] else []))

/-- updateActivity: refresh lastActivity and reset the inactivity timer
of an existing session (clearing the old handle first); absent ids do
nothing; no notification is sent. -/
def updateActivity (s : MgrState) (sid : String) (now : Nat) : MgrState × List MEv :=
  match s.sessions.find? (fun p => p.1 = sid) with
  | none => (s, [])
  | some pr =>
    let h := s.nextTimer
    let sess := pr.2
    let sess' : MSession := { sess with lastActivity := now, timeoutHandle := some h }
    let clearEvs := match sess.timeoutHandle with
      | some old => [MEv.clearTimer old]
      | none => []
    ({ s with
        sessions := s.sessions.map (fun p => if p.1 = sid then (sid, sess') else p),
        nextTimer := s.nextTimer + 1 },
     clearEvs ++ [MEv.setTimer sid h])

/-- add: an existing id only refreshes activity; a new id gets a fresh
session with a fresh timer, is appended to the map, and the listeners are
notified with the post-mutation snapshot. -/
def addSession (lt : Nat → Bool) (s : MgrState) (sid : String) (now : Nat) :
    MgrState × List MEv :=
  if hasSession s sid then updateActivity s sid now
  else
    let h := s.nextTimer
    let sess : MSession := ⟨sid, now, now, some h, none, none⟩
    let s' : MgrState :=
      { s with sessions := s.sessions ++ [(sid, sess)], nextTimer := s.nextTimer + 1 }
    (s', [MEv.setTimer sid h] ++ notifyListeners lt s' ++ [MEv.logLine])

/-- remove: a no-op for an absent id; otherwise clear the timer, delete
the map entry first, notify the listeners with the post-delete snapshot,
log, and finally invoke the removal callback inside try/catch (`cbT`
says whether the callback throws; the throw is caught). -/
def removeSession (lt : Nat → Bool) (cbT : Bool) (s : MgrState) (sid : String) :
    MgrState × List MEv :=
  match s.sessions.find? (fun p => p.1 = sid) with
  | none => (s, [])
  | some pr =>
    let clearEvs := match pr.2.timeoutHandle with
      | some h => [MEv.clearTimer h]
      | none => []
    let s' : MgrState := { s with sessions := s.sessions.filter (fun p => ¬ (p.1 = sid)) }
    let cbEvs := if s.removalCallback then
        [MEv.invokeCallback sid] ++ (if cbT then [MEv.callbackError] else [])
      else []
    (s', clearEvs ++ notifyListeners lt s' ++ [MEv.logLine] ++ cbEvs)

/-- subscribe: add the listener to the set, then invoke it once with the
current snapshot.  This immediate call is NOT wrapped in try/catch in the
source, so a throw there escapes to the caller (the Except result); the
unsubscribe closure is modelled by `unsubscribeSession`. -/
def subscribeSession (lt : Nat → Bool) (s : MgrState) (l : Nat) :
    MgrState × List MEv × Except Unit Unit :=
  let s' : MgrState :=
    { s with listeners := if l ∈ s.listeners then s.listeners else s.listeners ++ [l] }
  (s', [MEv.notify l (getAll s')], if lt l then Except.error () else Except.ok ())

/-- The closure returned by subscribe: delete the listener from the set. -/
def unsubscribeSession (s : MgrState) (l : Nat) : MgrState :=
  { s with listeners := s.listeners.filter (fun x => ¬ (x = l)) }

/-- Number of notifications delivered to listener `l` in an event list. -/
def countNotify (l : Nat) (tr : List MEv) : Nat :=
  (tr.filter (fun e => match e with
    | MEv.notify l' _ => l' = l
    | _ => false)).length

/-- The snapshots delivered to listener `l`, in order. -/
def notifyPayloads (l : Nat) (tr : List MEv) : List (List MSession) :=
  tr.filterMap (fun e => match e with
    | MEv.notify l' snap => if l' = l then some snap else none
    | _ => none)

end SessionMgr

namespace Gateway

open SessionMgr

/-- Outcome of the per-request dispatch: either a direct response written
by sendResponse (status and body), or the request is handed to the
session transport handler. -/
inductive GateOut where
  | respond (status : Nat) (body : List Char)
  | handled
  | internalError
deriving DecidableEq, Repr

/-- The structured error body sent for an unknown session id
(JSON.stringify of the literal object in the source). -/
def body409 : List Char :=
  str "\x7b\"jsonrpc\":\"2.0\",\"error\":\x7b\"code\":-32600,\"message\":\"Session expired or not found. Please reconnect.\"\x7d,\"id\":null\x7d"

/-- The 404 body. -/
def bodyNotFound : List Char := str "Not Found"

/-- The endpoint filter: path without query must equal the endpoint, or
the raw path must start with endpoint + slash or endpoint + question
mark. -/
def endpointMatch (endpoint p : List Char) : Bool :=
  (jsSplit ['?'] p).headD [] = endpoint
  || startsWithList (endpoint ++ ['/']) p
  || startsWithList (endpoint ++ ['?']) p

/-- Key under which a transport awaiting its session id is parked. -/
def pendingKey : List Char := str "__pending__"

/-- Truthiness of an optional header value (undefined and the empty
string are falsy). -/
def truthy (o : Option (List Char)) : Bool :=
  match o with
  | none => false
  | some s => ¬ (s = [])

/-- The per-request routing step of processHttpRequests, after a request
has been framed: endpoint check (404), then unknown-session check (409),
otherwise the request is handled — creating a transport (parked under the
pending key when the client sent no session id) or refreshing activity of
the referenced session.  Returns the outcome, the keys of the
session-transport map, and the SessionManager state. -/
def gatewayStep (endpoint : List Char) (req : ParsedRequest)
    (keys : List (List Char)) (mgr : MgrState) (now : Nat) :
    GateOut × List (List Char) × MgrState :=
  match req.path with
  | none => (GateOut.internalError, keys, mgr)
  | some p =>
    if ¬ endpointMatch endpoint p then (GateOut.respond 404 bodyNotFound, keys, mgr)
    else
      let sid := jsGet req.headers (str "mcp-session-id")
      let found := truthy sid && (sid.getD []) ∈ keys
      if truthy sid ∧ ¬ found then (GateOut.respond 409 body409, keys, mgr)
      else
        let keys' := if ¬ found ∧ ¬ truthy sid then keys ++ [pendingKey] else keys
        let mgr' := if truthy sid then
            (updateActivity mgr (String.mk (sid.getD [])) now).1
          else mgr
        (GateOut.handled, keys', mgr')

/-- Response-emitter events on the socket. -/
inductive SockEv where
  | write (data : List Char)
  | endSock
deriving DecidableEq, Repr

/-- The status text table. -/
def getStatusText (status : Nat) : List Char :=
  if status = 200 then str "OK"
  else if status = 201 then str "Created"
  else if status = 204 then str "No Content"
  else if status = 400 then str "Bad Request"
  else if status = 404 then str "Not Found"
  else if status = 405 then str "Method Not Allowed"
  else if status = 409 then str "Conflict"
  else if status = 500 then str "Internal Server Error"
  else str "Unknown"

/-- The status line of a response. -/
def statusLine (status : Nat) : List Char :=
  str "HTTP/1.1 " ++ (Nat.repr status).data ++ [' '] ++ getStatusText status ++ CRLF

/-- Serialized header block (Object.entries order is insertion order). -/
def serializeHeaders (h : List (List Char × List Char)) : List Char :=
  h.flatMap (fun p => p.1 ++ str ": " ++ p.2 ++ CRLF)

/-- UTF-8 byte length of one character (Buffer.byteLength). -/
def charUtf8Len (c : Char) : Nat :=
  if c.toNat < 0x80 then 1
  else if c.toNat < 0x800 then 2
  else if c.toNat < 0x10000 then 3
  else 4

/-- UTF-8 byte length of the body string. -/
def utf8Len (s : List Char) : Nat := (s.map charUtf8Len).sum

/-- The keep-alive decision: connection?.toLowerCase() compared with the
literal keep-alive. -/
def isKeepAlive (conn : Option (List Char)) : Bool :=
  match conn with
  | none => false
  | some c => lowerStr c = str "keep-alive"

/-- Result of sendResponse: whether anything was written, the socket
events in order (the end event is emitted from the write-flush callback,
hence strictly after the write), the ended flag, and the final header
object. -/
structure SendOut where
  ok : Bool
  wire : List SockEv
  ended : Bool
  finalHeaders : List (List Char × List Char)
deriving DecidableEq, Repr

/-- The header mutations sendResponse performs before serializing: set
content-length to the body byte length, set connection from the request
connection header, add a date header when the date field is absent or
empty. -/
def respHeaders (headers : List (List Char × List Char)) (body : List Char)
    (conn : Option (List Char)) (dateStr : List Char) :
    List (List Char × List Char) :=
  let h1 := jsSet headers (str "content-length") (Nat.repr (utf8Len body)).data
  let h2 := jsSet h1 (str "connection")
    (if isKeepAlive conn then str "keep-alive" else str "close")
  if truthy (jsGet h2 (str "date")) then h2 else jsSet h2 (str "date") dateStr

/-- sendResponse (buffered path): refuse to write on an ended, destroyed
or unwritable socket; apply the header mutations, write status line +
headers + separator + body in one write; when not keep-alive, mark the
connection ended and end the socket from the write-flush callback. -/
def sendResponse (ended destroyed writable : Bool) (status : Nat)
    (headers : List (List Char × List Char)) (body : List Char)
    (conn : Option (List Char)) (dateStr : List Char) : SendOut :=
  if ended || destroyed || !writable then ⟨false, [], ended, headers⟩
  else
    let h3 := respHeaders headers body conn dateStr
    let resp := statusLine status ++ serializeHeaders h3 ++ CRLF ++ body
    if isKeepAlive conn then ⟨true, [SockEv.write resp], false, h3⟩
    else ⟨true, [SockEv.write resp, SockEv.endSock], true, h3⟩

/-- The header mutations sendSSEHeaders performs: delete any
content-length, force cache-control no-cache and connection keep-alive. -/
def sseHeaders (headers : List (List Char × List Char)) :
    List (List Char × List Char) :=
  jsSet (jsSet (jsDelete headers (str "content-length"))
      (str "cache-control") (str "no-cache"))
    (str "connection") (str "keep-alive")

/-- sendSSEHeaders: refuse on an ended, destroyed or unwritable socket;
apply the SSE header mutations and write status line + headers +
separator.  Returns the wire bytes and the final header object. -/
def sendSSEHeaders (ended destroyed writable : Bool) (status : Nat)
    (headers : List (List Char × List Char)) :
    Option (List Char × List (List Char × List Char)) :=
  if ended || destroyed || !writable then none
  else
    some (statusLine status ++ serializeHeaders (sseHeaders headers) ++ CRLF,
      sseHeaders headers)

/-- The SSE pump loop: before each chunk check that the socket is still
writable (the writability schedule `w` is indexed by chunk position);
write the chunk if so, otherwise break; in all cases the finally block
ends the socket. -/
def pumpSSE (w : Nat → Bool) : Nat → List (List Char) → List SockEv
  | _, [] => [SockEv.endSock]
  | i, c :: rest =>
    if w i then SockEv.write c :: pumpSSE w (i + 1) rest
    else [SockEv.endSock]

/-- State of one invocation of processHttpRequests: at the top of the
while loop, suspended awaiting the handler of a framed request, or
returned. -/
inductive TaskSt where
  | atLoop
  | awaiting (req : ParsedRequest)
  | taskDone
deriving DecidableEq, Repr

/-- Per-connection event-loop state: the shared buffer, the invocations
of processHttpRequests spawned so far (in spawn order), and the paths of
the responses written so far (in write order). -/
structure ConnSt where
  buffer : List Char
  tasks : List TaskSt
  writes : List (Option (List Char))
deriving DecidableEq, Repr

/-- Run invocation `i` from the top of its while loop to its next
suspension point: frame one request from the shared buffer and suspend
at the handler await, or return when no complete request is buffered.
(The buffer is consumed before the await, exactly as in the source.) -/
def runTask (s : ConnSt) (i : Nat) : ConnSt :=
  match s.tasks[i]? with
  | some TaskSt.atLoop =>
    (match frameStep s.buffer with
     | none => { s with tasks := s.tasks.set i TaskSt.taskDone }
     | some (req, rest, _) =>
       { s with buffer := rest, tasks := s.tasks.set i (TaskSt.awaiting req) })
  | _ => s

/-- External events driving one connection: a data chunk arriving, or
the handler promise of invocation `i` resolving. -/
inductive LoopEv where
  | dataArrival (chunk : List Char)
  | resume (i : Nat)
deriving Repr

/-- Event-loop semantics of the connection handler: a data event appends
the chunk to the shared buffer and synchronously starts a NEW invocation
of processHttpRequests (each data listener call invokes the async
function again), running it to its first suspension; a resume event
writes the response of the awaited request and lets that invocation
continue its loop.  Handler completion order is external, so any resume
order is a possible schedule. -/
def execEv (s : ConnSt) : LoopEv → ConnSt
  | LoopEv.dataArrival c =>
    let s1 : ConnSt :=
      { s with buffer := s.buffer ++ c, tasks := s.tasks ++ [TaskSt.atLoop] }
    runTask s1 (s1.tasks.length - 1)
  | LoopEv.resume i =>
    match s.tasks[i]? with
    | some (TaskSt.awaiting req) =>
      let s1 : ConnSt :=
        { s with writes := s.writes ++ [req.path], tasks := s.tasks.set i TaskSt.atLoop }
      runTask s1 i
    | _ => s

/-- Run a schedule from the initial connection state. -/
def execTrace (evs : List LoopEv) : ConnSt := evs.foldl execEv ⟨[], [], []⟩

end Gateway


/-! ## Helper lemmas on the JavaScript object model -/

namespace Gateway

lemma find?_map_set (m : List (List Char × List Char)) (k v : List Char) :
    (m.any fun p => decide (p.1 = k)) = true →
    (m.map (fun p => if p.1 = k then (k, v) else p)).find? (fun p => decide (p.1 = k)) =
      some (k, v) := by
  intro h
  induction m with
  | nil => simp at h
  | cons a t ih =>
    rw [List.map_cons]
    by_cases hk : a.1 = k
    · rw [if_pos hk]
      exact List.find?_cons_of_pos _ (by simp)
    · rw [if_neg hk, List.find?_cons_of_neg _ (by simpa using hk)]
      apply ih
      rw [List.any_cons, decide_eq_false hk, Bool.false_or] at h
      exact h

lemma find?_map_set_ne (m : List (List Char × List Char)) (k v k' : List Char)
    (hne : ¬ (k = k')) :
    (m.map (fun p => if p.1 = k then (k, v) else p)).find? (fun p => decide (p.1 = k')) =
      m.find? (fun p => decide (p.1 = k')) := by
  induction m with
  | nil => rfl
  | cons a t ih =>
    rw [List.map_cons]
    by_cases hk : a.1 = k
    · have ha : ¬ (a.1 = k') := fun hc => hne (hk.symm.trans hc)
      rw [if_pos hk, List.find?_cons_of_neg _ (by simpa using hne),
        List.find?_cons_of_neg _ (by simpa using ha), ih]
    · rw [if_neg hk]
      by_cases ha : a.1 = k'
      · rw [List.find?_cons_of_pos _ (by simpa using ha),
          List.find?_cons_of_pos _ (by simpa using ha)]
      · rw [List.find?_cons_of_neg _ (by simpa using ha),
          List.find?_cons_of_neg _ (by simpa using ha), ih]

lemma find?_none_of_key_any (m : List (List Char × List Char)) (k : List Char)
    (h : (m.any fun p => decide (p.1 = k)) = false) :
    m.find? (fun p => decide (p.1 = k)) = none := by
  rw [List.find?_eq_none]
  intro p hp hpk
  have ht : (m.any fun p => decide (p.1 = k)) = true := List.any_eq_true.mpr ⟨p, hp, hpk⟩
  rw [ht] at h
  cases h

lemma jsGet_set_self (m : List (List Char × List Char)) (k v : List Char) :
    jsGet (jsSet m k v) k = some v := by
  unfold jsGet jsSet
  by_cases h : (m.any fun p => decide (p.1 = k)) = true
  · rw [if_pos h, find?_map_set m k v h]
    rfl
  · have hf : (m.any fun p => decide (p.1 = k)) = false := Bool.eq_false_iff.mpr h
    rw [if_neg h, List.find?_append, find?_none_of_key_any m k hf, Option.none_or,
      List.find?_cons_of_pos _ (by simp)]
    rfl

lemma jsGet_set_ne (m : List (List Char × List Char)) (k v k' : List Char)
    (hne : ¬ (k = k')) : jsGet (jsSet m k v) k' = jsGet m k' := by
  unfold jsGet jsSet
  by_cases h : (m.any fun p => decide (p.1 = k)) = true
  · rw [if_pos h, find?_map_set_ne m k v k' hne]
  · have hone : List.find? (fun p => decide (p.1 = k')) [(k, v)] = none := by
      rw [List.find?_cons_of_neg _ (by simpa using hne)]
      rfl
    rw [if_neg h, List.find?_append, hone, Option.or_none]

lemma jsGet_delete_self (m : List (List Char × List Char)) (k : List Char) :
    jsGet (jsDelete m k) k = none := by
  unfold jsGet jsDelete
  have hnone : (m.filter fun p => decide (¬ (p.1 = k))).find?
      (fun p => decide (p.1 = k)) = none := by
    rw [List.find?_eq_none]
    intro p hp
    have h2 := (List.mem_filter.mp hp).2
    simp only [decide_not, Bool.not_eq_true', decide_eq_false_iff_not] at h2
    simp [h2]
  rw [hnone]
  rfl

lemma pumpSSE_all (w : Nat → Bool) (hw : ∀ i, w i = true) :
    ∀ chunks i, pumpSSE w i chunks = chunks.map SockEv.write ++ [SockEv.endSock] := by
  intro chunks
  induction chunks with
  | nil => intro i; rfl
  | cons c rest ih =>
    intro i
    simp [pumpSSE, hw i, ih (i + 1)]

end Gateway

/-! ## Response emitter: claims C7 and C8 -/

namespace Gateway

lemma sendResponse_unfold (status : Nat) (headers : List (List Char × List Char))
    (body : List Char) (conn : Option (List Char)) (dateStr : List Char) :
    sendResponse false false true status headers body conn dateStr =
      (if isKeepAlive conn then
        SendOut.mk true
          [SockEv.write (statusLine status ++
            serializeHeaders (respHeaders headers body conn dateStr) ++ CRLF ++ body)]
          false (respHeaders headers body conn dateStr)
      else
        SendOut.mk true
          [SockEv.write (statusLine status ++
            serializeHeaders (respHeaders headers body conn dateStr) ++ CRLF ++ body),
            SockEv.endSock]
          true (respHeaders headers body conn dateStr)) := rfl

lemma sendResponse_finalHeaders (status : Nat) (headers : List (List Char × List Char))
    (body : List Char) (conn : Option (List Char)) (dateStr : List Char) :
    (sendResponse false false true status headers body conn dateStr).finalHeaders =
      respHeaders headers body conn dateStr := by
  rw [sendResponse_unfold]
  split <;> rfl

lemma jsGet_dateFill (m : List (List Char × List Char)) (dateStr k : List Char)
    (hk : ¬ (str "date" = k)) :
    jsGet (if truthy (jsGet m (str "date")) = true then m else jsSet m (str "date") dateStr)
        k = jsGet m k := by
  split
  · rfl
  · exact jsGet_set_ne _ _ _ _ hk

lemma respHeaders_cl (headers : List (List Char × List Char)) (body : List Char)
    (conn : Option (List Char)) (dateStr : List Char) :
    jsGet (respHeaders headers body conn dateStr) (str "content-length") =
      some (Nat.repr (utf8Len body)).data := by
  simp only [respHeaders]
  rw [jsGet_dateFill _ _ _ (by decide), jsGet_set_ne _ _ _ _ (by decide), jsGet_set_self]

lemma respHeaders_conn (headers : List (List Char × List Char)) (body : List Char)
    (conn : Option (List Char)) (dateStr : List Char) :
    jsGet (respHeaders headers body conn dateStr) (str "connection") =
      some (if isKeepAlive conn then str "keep-alive" else str "close") := by
  simp only [respHeaders]
  rw [jsGet_dateFill _ _ _ (by decide), jsGet_set_self]

lemma isKeepAlive_iff (conn : Option (List Char)) :
    isKeepAlive conn = true ↔
      ∃ c, conn = some c ∧ lowerStr c = lowerStr (str "keep-alive") := by
  have hka : lowerStr (str "keep-alive") = str "keep-alive" := by decide
  cases conn with
  | none => simp [isKeepAlive]
  | some c => simp [isKeepAlive, hka]

/-- C7 (confirmed): for every buffered response on a live socket, the
emitter sets content-length to the byte length of the serialized body,
sets the connection header to keep-alive exactly when the request's
connection header equals keep-alive case-insensitively (otherwise
close), and in the non-keep-alive case marks the connection ended and
emits the socket end strictly after the write (the end is issued from
the write-flush callback). -/
theorem sendResponse_spec (status : Nat) (headers : List (List Char × List Char))
    (body : List Char) (conn : Option (List Char)) (dateStr : List Char) :
    jsGet (sendResponse false false true status headers body conn dateStr).finalHeaders
        (str "content-length") = some (Nat.repr (utf8Len body)).data ∧
    (jsGet (sendResponse false false true status headers body conn dateStr).finalHeaders
        (str "connection") = some (str "keep-alive") ↔
      (∃ c, conn = some c ∧ lowerStr c = lowerStr (str "keep-alive"))) ∧
    (isKeepAlive conn = false →
      (sendResponse false false true status headers body conn dateStr).ended = true ∧
      (sendResponse false false true status headers body conn dateStr).wire =
        [SockEv.write (statusLine status ++
            serializeHeaders (respHeaders headers body conn dateStr) ++ CRLF ++ body),
          SockEv.endSock]) ∧
    (isKeepAlive conn = true →
      (sendResponse false false true status headers body conn dateStr).ended = false ∧
      (sendResponse false false true status headers body conn dateStr).wire =
        [SockEv.write (statusLine status ++
            serializeHeaders (respHeaders headers body conn dateStr) ++ CRLF ++ body)]) := by
  refine ⟨?_, ?_, ?_, ?_⟩
  · rw [sendResponse_finalHeaders, respHeaders_cl]
  · rw [sendResponse_finalHeaders, respHeaders_conn]
    by_cases hKA : isKeepAlive conn = true
    · rw [if_pos hKA]
      constructor
      · intro _
        exact (isKeepAlive_iff conn).mp hKA
      · intro _
        rfl
    · rw [if_neg hKA]
      constructor
      · intro hc
        exact absurd hc (by decide)
      · intro hex
        exact absurd ((isKeepAlive_iff conn).mpr hex) hKA
  · intro hf
    rw [sendResponse_unfold, hf]
    exact ⟨rfl, rfl⟩
  · intro ht
    rw [sendResponse_unfold, ht]
    exact ⟨rfl, rfl⟩

theorem sendResponse_spec_witness :
    (sendResponse false false true 200 [] (str "ok") none (str "D")).ended = true ∧
    jsGet (sendResponse false false true 200 [] (str "ok") none (str "D")).finalHeaders
        (str "content-length") = some (Nat.repr (utf8Len (str "ok"))).data := by
  refine ⟨?_, ?_⟩
  · exact ((sendResponse_spec 200 [] (str "ok") none (str "D")).2.2.1 (by decide)).1
  · exact (sendResponse_spec 200 [] (str "ok") none (str "D")).1

/-- C8 (confirmed): an event-stream response carries no content-length
header (a declared one is removed), does carry cache-control no-cache
and connection keep-alive, and while the connection stays writable every
chunk the body produces is written in production order. -/
theorem sse_spec (status : Nat) (headers : List (List Char × List Char))
    (chunks : List (List Char)) (w : Nat → Bool) :
    jsGet (sseHeaders headers) (str "content-length") = none ∧
    jsGet (sseHeaders headers) (str "cache-control") = some (str "no-cache") ∧
    jsGet (sseHeaders headers) (str "connection") = some (str "keep-alive") ∧
    sendSSEHeaders false false true status headers =
      some (statusLine status ++ serializeHeaders (sseHeaders headers) ++ CRLF,
        sseHeaders headers) ∧
    ((∀ i, w i = true) →
      pumpSSE w 0 chunks = chunks.map SockEv.write ++ [SockEv.endSock]) := by
  refine ⟨?_, ?_, ?_, rfl, ?_⟩
  · unfold sseHeaders
    rw [jsGet_set_ne _ _ _ _ (by decide), jsGet_set_ne _ _ _ _ (by decide),
      jsGet_delete_self]
  · unfold sseHeaders
    rw [jsGet_set_ne _ _ _ _ (by decide), jsGet_set_self]
  · unfold sseHeaders
    rw [jsGet_set_self]
  · intro hw
    exact pumpSSE_all w hw chunks 0

theorem sse_spec_witness :
    pumpSSE (fun _ => true) 0 [str "e1", str "e2"] =
      [SockEv.write (str "e1"), SockEv.write (str "e2"), SockEv.endSock] ∧
    jsGet (sseHeaders [(str "content-length", str "5")]) (str "content-length") = none := by
  refine ⟨?_, ?_⟩
  · have h := (sse_spec 200 [(str "content-length", str "5")]
      [str "e1", str "e2"] (fun _ => true)).2.2.2.2 (fun _ => rfl)
    simpa using h
  · exact (sse_spec 200 [(str "content-length", str "5")]
      [str "e1", str "e2"] (fun _ => true)).1

end Gateway

/-! ## Session registry: claims C2, C9, C10 -/

namespace SessionMgr

lemma countNotify_append (l : Nat) (a b : List MEv) :
    countNotify l (a ++ b) = countNotify l a + countNotify l b := by
  unfold countNotify
  rw [List.filter_append, List.length_append]

lemma notifyPayloads_append (l : Nat) (a b : List MEv) :
    notifyPayloads l (a ++ b) = notifyPayloads l a ++ notifyPayloads l b := by
  unfold notifyPayloads
  rw [List.filterMap_append]

lemma countNotify_flat (lt : Nat → Bool) (snap : List MSession) (l : Nat)
    (ls : List Nat) :
    countNotify l (ls.flatMap fun x =>
      MEv.notify x snap :: (if lt x then [MEv.listenerError x] else [])) =
      ls.count l := by
  induction ls with
  | nil => rfl
  | cons a t ih =>
    rw [List.flatMap_cons, countNotify_append, ih, List.count_cons]
    have hh : countNotify l (MEv.notify a snap ::
        (if lt a then [MEv.listenerError a] else [])) =
        if (a == l) = true then 1 else 0 := by
      by_cases h : a = l
      · by_cases hl : lt a = true <;> simp [countNotify, hl, h]
      · by_cases hl : lt a = true <;> simp [countNotify, hl, h]
    rw [hh]
    exact Nat.add_comm _ _

lemma notifyPayloads_flat (lt : Nat → Bool) (snap : List MSession) (l : Nat)
    (ls : List Nat) :
    notifyPayloads l (ls.flatMap fun x =>
      MEv.notify x snap :: (if lt x then [MEv.listenerError x] else [])) =
      List.replicate (ls.count l) snap := by
  induction ls with
  | nil => rfl
  | cons a t ih =>
    rw [List.flatMap_cons, notifyPayloads_append, ih, List.count_cons]
    have hh : notifyPayloads l (MEv.notify a snap ::
        (if lt a then [MEv.listenerError a] else [])) =
        if (a == l) = true then [snap] else [] := by
      by_cases h : a = l
      · by_cases hl : lt a = true <;> simp [notifyPayloads, hl, h]
      · by_cases hl : lt a = true <;> simp [notifyPayloads, hl, h]
    rw [hh]
    by_cases h : a = l
    · simp [h, List.replicate_succ]
    · simp [h]

lemma countNotify_notifyListeners (lt : Nat → Bool) (s : MgrState) (l : Nat) :
    countNotify l (notifyListeners lt s) = s.listeners.count l := by
  unfold notifyListeners
  exact countNotify_flat lt (getAll s) l s.listeners

lemma notifyPayloads_notifyListeners (lt : Nat → Bool) (s : MgrState) (l : Nat) :
    notifyPayloads l (notifyListeners lt s) =
      List.replicate (s.listeners.count l) (getAll s) := by
  unfold notifyListeners
  exact notifyPayloads_flat lt (getAll s) l s.listeners

lemma mgr_find_none (s : MgrState) (sid : String) (h : hasSession s sid = false) :
    s.sessions.find? (fun p => decide (p.1 = sid)) = none := by
  rw [List.find?_eq_none]
  intro p hp hpk
  have ht : hasSession s sid = true := List.any_eq_true.mpr ⟨p, hp, hpk⟩
  rw [ht] at h
  cases h

lemma mgr_find_some (s : MgrState) (sid : String) (h : hasSession s sid = true) :
    ∃ pr, s.sessions.find? (fun p => decide (p.1 = sid)) = some pr := by
  rcases List.any_eq_true.mp h with ⟨p, hp, hpk⟩
  cases hf : s.sessions.find? (fun p => decide (p.1 = sid)) with
  | some pr => exact ⟨pr, rfl⟩
  | none =>
    rw [List.find?_eq_none] at hf
    exact absurd hpk (hf p hp)

lemma any_filter_self_false (l : List (String × MSession)) (sid : String) :
    ((l.filter fun p => decide (¬ (p.1 = sid))).any fun p => decide (p.1 = sid)) =
      false := by
  rw [Bool.eq_false_iff]
  intro hb
  rcases List.any_eq_true.mp hb with ⟨p, hp, hpk⟩
  have h2 := (List.mem_filter.mp hp).2
  simp only [decide_not, Bool.not_eq_true', decide_eq_false_iff_not] at h2
  exact h2 (of_decide_eq_true hpk)

lemma removeSession_eq_absent (lt : Nat → Bool) (cbT : Bool) (s : MgrState)
    (sid : String)
    (hf : s.sessions.find? (fun p => decide (p.1 = sid)) = none) :
    removeSession lt cbT s sid = (s, []) := by
  unfold removeSession
  rw [hf]

lemma removeSession_eq_present (lt : Nat → Bool) (cbT : Bool) (s : MgrState)
    (sid : String) (pr : String × MSession)
    (hf : s.sessions.find? (fun p => decide (p.1 = sid)) = some pr) :
    removeSession lt cbT s sid =
      ({ s with sessions := s.sessions.filter fun p => ¬ (p.1 = sid) },
        (match pr.2.timeoutHandle with
          | some h => [MEv.clearTimer h]
          | none => []) ++
        notifyListeners lt
          { s with sessions := s.sessions.filter fun p => ¬ (p.1 = sid) } ++
        [MEv.logLine] ++
        (if s.removalCallback then
          [MEv.invokeCallback sid] ++ (if cbT then [MEv.callbackError] else [])
         else [])) := by
  unfold removeSession
  rw [hf]

lemma notify_not_mem_cbEvs (cbT rc : Bool) (sid : String) (x : Nat)
    (snap : List MSession) :
    MEv.notify x snap ∉
      (if rc then [MEv.invokeCallback sid] ++ (if cbT then [MEv.callbackError] else [])
       else ([] : List MEv)) := by
  cases rc <;> cases cbT <;> simp

lemma invokeCallback_not_mem_notifyListeners (lt : Nat → Bool) (s : MgrState)
    (t : String) : MEv.invokeCallback t ∉ notifyListeners lt s := by
  intro hmem
  rcases List.mem_flatMap.mp hmem with ⟨a, _, hin⟩
  by_cases hl : lt a = true <;> simp [hl] at hin

lemma notify_before_callback_aux (pre post : List MEv)
    (h1 : ∀ x snap, MEv.notify x snap ∉ post)
    (h2 : ∀ t, MEv.invokeCallback t ∉ pre) :
    ∀ (i j x : Nat) (snap : List MSession) (t : String),
      (pre ++ post)[i]? = some (MEv.notify x snap) →
      (pre ++ post)[j]? = some (MEv.invokeCallback t) → i < j := by
  intro i j x snap t hi hj
  have hilt : i < pre.length := by
    by_contra hge
    have hle : pre.length ≤ i := Nat.le_of_not_lt hge
    rw [List.getElem?_append_right hle] at hi
    exact h1 x snap (List.getElem?_mem hi)
  have hjge : pre.length ≤ j := by
    by_contra hlt2
    have hjl : j < pre.length := Nat.lt_of_not_le hlt2
    rw [List.getElem?_append_left hjl] at hj
    exact h2 t (List.getElem?_mem hj)
  exact Nat.lt_of_lt_of_le hilt hjge

lemma notify_before_callback_aux4 (a b c d : List MEv)
    (h1 : ∀ x snap, MEv.notify x snap ∉ d)
    (h2a : ∀ t, MEv.invokeCallback t ∉ a)
    (h2b : ∀ t, MEv.invokeCallback t ∉ b)
    (h2c : ∀ t, MEv.invokeCallback t ∉ c) :
    ∀ (i j x : Nat) (snap : List MSession) (t : String),
      (a ++ b ++ c ++ d)[i]? = some (MEv.notify x snap) →
      (a ++ b ++ c ++ d)[j]? = some (MEv.invokeCallback t) → i < j := by
  have he : a ++ b ++ c ++ d = (a ++ (b ++ c)) ++ d := by
    simp [List.append_assoc]
  rw [he]
  intro i j x snap t hi hj
  refine notify_before_callback_aux (a ++ (b ++ c)) d h1 ?_ i j x snap t hi hj
  intro t2 hmem
  rcases List.mem_append.mp hmem with ha | hbc
  · exact h2a t2 ha
  · rcases List.mem_append.mp hbc with hb | hc2
    · exact h2b t2 hb
    · exact h2c t2 hc2

/-- C2 (confirmed): remove of an absent id is a no-op; remove of a
present id clears that session, deletes the map entry, and every
subscriber notification in its event trace occurs strictly before the
removal-callback invocation, so the state handed to the removal callback
no longer contains the id and a re-entrant remove of the same id is a
no-op; and neither a throwing subscriber nor a throwing removal callback
changes the resulting state or escapes to the caller of remove (remove
is total and its state result is independent of the throw profiles). -/
theorem removeSession_spec :
    (∀ lt cbT s sid, hasSession s sid = false →
      removeSession lt cbT s sid = (s, [])) ∧
    (∀ lt cbT s sid, hasSession s sid = true →
      (removeSession lt cbT s sid).1.sessions =
        s.sessions.filter (fun p => ¬ (p.1 = sid)) ∧
      hasSession (removeSession lt cbT s sid).1 sid = false ∧
      (∀ lt2 cbT2, removeSession lt2 cbT2 (removeSession lt cbT s sid).1 sid =
        ((removeSession lt cbT s sid).1, [])) ∧
      (∀ lt2 cbT2, (removeSession lt2 cbT2 s sid).1 = (removeSession lt cbT s sid).1) ∧
      (∀ (i j x : Nat) (snap : List MSession),
        ((removeSession lt cbT s sid).2)[i]? = some (MEv.notify x snap) →
        ((removeSession lt cbT s sid).2)[j]? = some (MEv.invokeCallback sid) →
        i < j)) := by
  constructor
  · intro lt cbT s sid h
    exact removeSession_eq_absent lt cbT s sid (mgr_find_none s sid h)
  · intro lt cbT s sid h
    rcases mgr_find_some s sid h with ⟨pr, hf⟩
    have heq := removeSession_eq_present lt cbT s sid pr hf
    have hafter : hasSession
        ({ s with sessions := s.sessions.filter fun p => ¬ (p.1 = sid) } : MgrState)
        sid = false := any_filter_self_false s.sessions sid
    refine ⟨?_, ?_, ?_, ?_, ?_⟩
    · rw [heq]
    · rw [heq]
      exact hafter
    · intro lt2 cbT2
      rw [heq]
      exact removeSession_eq_absent lt2 cbT2 _ sid (mgr_find_none _ sid hafter)
    · intro lt2 cbT2
      rw [removeSession_eq_present lt2 cbT2 s sid pr hf, heq]
    · rw [heq]
      intro i j x snap hi hj
      refine notify_before_callback_aux4 _ _ _ _ ?_ ?_ ?_ ?_ i j x snap sid hi hj
      · intro x2 snap2
        exact notify_not_mem_cbEvs cbT s.removalCallback sid x2 snap2
      · intro t2 hclear
        revert hclear
        cases pr.2.timeoutHandle <;> simp
      · intro t2 hnot
        exact invokeCallback_not_mem_notifyListeners lt _ t2 hnot
      · intro t2 hlog
        simp at hlog

theorem removeSession_spec_witness :
    removeSession (fun _ => false) false (MgrState.mk [] [] false 0) "a" =
      (MgrState.mk [] [] false 0, []) ∧
    hasSession (removeSession (fun _ => true) true
      (MgrState.mk [("a", MSession.mk "a" 0 0 (some 3) none none)] [5] true 10) "a").1
      "a" = false := by
  refine ⟨?_, ?_⟩
  · exact removeSession_spec.1 (fun _ => false) false _ "a" (by decide)
  · exact (removeSession_spec.2 (fun _ => true) true
      (MgrState.mk [("a", MSession.mk "a" 0 0 (some 3) none none)] [5] true 10) "a"
      (by decide)).2.1

end SessionMgr

namespace SessionMgr

lemma countNotify_singleton_setTimer (l : Nat) (sid : String) (h0 : Nat) :
    countNotify l [MEv.setTimer sid h0] = 0 := rfl

lemma countNotify_logLine (l : Nat) : countNotify l [MEv.logLine] = 0 := rfl

lemma notifyPayloads_singleton_setTimer (l : Nat) (sid : String) (h0 : Nat) :
    notifyPayloads l [MEv.setTimer sid h0] = [] := rfl

lemma notifyPayloads_logLine (l : Nat) : notifyPayloads l [MEv.logLine] = [] := rfl

lemma countNotify_clearEvs (l : Nat) (o : Option Nat) :
    countNotify l (match o with
      | some h => [MEv.clearTimer h]
      | none => []) = 0 := by
  cases o <;> rfl

lemma countNotify_cbEvs (l : Nat) (sid : String) (cbT rc : Bool) :
    countNotify l (if rc then
      [MEv.invokeCallback sid] ++ (if cbT then [MEv.callbackError] else [])
    else []) = 0 := by
  cases rc <;> cases cbT <;> rfl

lemma notifyPayloads_clearEvs (l : Nat) (o : Option Nat) :
    notifyPayloads l (match o with
      | some h => [MEv.clearTimer h]
      | none => []) = [] := by
  cases o <;> rfl

lemma notifyPayloads_cbEvs (l : Nat) (sid : String) (cbT rc : Bool) :
    notifyPayloads l (if rc then
      [MEv.invokeCallback sid] ++ (if cbT then [MEv.callbackError] else [])
    else []) = [] := by
  cases rc <;> cases cbT <;> rfl

lemma countNotify_addTrace (lt : Nat → Bool) (s' : MgrState) (l : Nat)
    (sid : String) (h0 : Nat) :
    countNotify l ([MEv.setTimer sid h0] ++ notifyListeners lt s' ++ [MEv.logLine]) =
      s'.listeners.count l := by
  rw [countNotify_append, countNotify_append, countNotify_notifyListeners,
    countNotify_singleton_setTimer, countNotify_logLine]
  omega

lemma notifyPayloads_addTrace (lt : Nat → Bool) (s' : MgrState) (l : Nat)
    (sid : String) (h0 : Nat) :
    notifyPayloads l ([MEv.setTimer sid h0] ++ notifyListeners lt s' ++ [MEv.logLine]) =
      List.replicate (s'.listeners.count l) (getAll s') := by
  rw [notifyPayloads_append, notifyPayloads_append, notifyPayloads_notifyListeners,
    notifyPayloads_singleton_setTimer, notifyPayloads_logLine]
  simp

lemma countNotify_removeTrace (lt : Nat → Bool) (s' : MgrState) (l : Nat)
    (clearEvs cbEvs : List MEv)
    (hclear : countNotify l clearEvs = 0) (hcb : countNotify l cbEvs = 0) :
    countNotify l (clearEvs ++ notifyListeners lt s' ++ [MEv.logLine] ++ cbEvs) =
      s'.listeners.count l := by
  rw [countNotify_append, countNotify_append, countNotify_append,
    countNotify_notifyListeners, hclear, hcb, countNotify_logLine]
  omega

lemma notifyPayloads_removeTrace (lt : Nat → Bool) (s' : MgrState) (l : Nat)
    (clearEvs cbEvs : List MEv)
    (hclear : notifyPayloads l clearEvs = []) (hcb : notifyPayloads l cbEvs = []) :
    notifyPayloads l (clearEvs ++ notifyListeners lt s' ++ [MEv.logLine] ++ cbEvs) =
      List.replicate (s'.listeners.count l) (getAll s') := by
  rw [notifyPayloads_append, notifyPayloads_append, notifyPayloads_append,
    notifyPayloads_notifyListeners, hclear, hcb, notifyPayloads_logLine]
  simp

lemma addSession_eq_new (lt : Nat → Bool) (s : MgrState) (sid : String) (now : Nat)
    (h : hasSession s sid = false) :
    addSession lt s sid now =
      ({ s with
          sessions := s.sessions ++
            [(sid, MSession.mk sid now now (some s.nextTimer) none none)],
          nextTimer := s.nextTimer + 1 },
       [MEv.setTimer sid s.nextTimer] ++
         notifyListeners lt
           { s with
              sessions := s.sessions ++
                [(sid, MSession.mk sid now now (some s.nextTimer) none none)],
              nextTimer := s.nextTimer + 1 } ++
         [MEv.logLine]) := by
  unfold addSession
  rw [if_neg (fun hc => Bool.false_ne_true (h.symm.trans hc))]

/-- C9 (confirmed): subscribe synchronously invokes the listener exactly
once with the current snapshot and registers it, the returned closure
removes it again, and thereafter an add of a new id and a remove of a
present id each deliver exactly one further notification to a registered
listener, carrying the full post-mutation session list, while
updateActivity delivers none. -/
theorem subscribe_notify_spec :
    (∀ lt s l, (subscribeSession lt s l).2.1 = [MEv.notify l (getAll s)] ∧
      l ∈ (subscribeSession lt s l).1.listeners ∧
      (subscribeSession lt s l).1.sessions = s.sessions ∧
      l ∉ (unsubscribeSession (subscribeSession lt s l).1 l).listeners) ∧
    (∀ lt s sid now l, hasSession s sid = false → s.listeners.count l = 1 →
      countNotify l (addSession lt s sid now).2 = 1 ∧
      notifyPayloads l (addSession lt s sid now).2 =
        [getAll (addSession lt s sid now).1]) ∧
    (∀ lt cbT s sid l, hasSession s sid = true → s.listeners.count l = 1 →
      countNotify l (removeSession lt cbT s sid).2 = 1 ∧
      notifyPayloads l (removeSession lt cbT s sid).2 =
        [getAll (removeSession lt cbT s sid).1]) ∧
    (∀ s sid now l, countNotify l (updateActivity s sid now).2 = 0) := by
  refine ⟨?_, ?_, ?_, ?_⟩
  · intro lt s l
    refine ⟨rfl, ?_, rfl, ?_⟩
    · by_cases hmem : l ∈ s.listeners
      · simp [subscribeSession, hmem]
      · simp [subscribeSession, hmem]
    · intro hmem
      have h2 := (List.mem_filter.mp hmem).2
      simp at h2
  · intro lt s sid now l h hcnt
    rw [addSession_eq_new lt s sid now h]
    constructor
    · rw [countNotify_addTrace]
      exact hcnt
    · rw [notifyPayloads_addTrace]
      dsimp only
      rw [hcnt]
      rfl
  · intro lt cbT s sid l h hcnt
    rcases mgr_find_some s sid h with ⟨pr, hf⟩
    rw [removeSession_eq_present lt cbT s sid pr hf]
    constructor
    · rw [countNotify_removeTrace lt _ l _ _
        (countNotify_clearEvs l pr.2.timeoutHandle)
        (countNotify_cbEvs l sid cbT s.removalCallback)]
      exact hcnt
    · rw [notifyPayloads_removeTrace lt _ l _ _
        (notifyPayloads_clearEvs l pr.2.timeoutHandle)
        (notifyPayloads_cbEvs l sid cbT s.removalCallback)]
      dsimp only
      rw [hcnt]
      rfl
  · intro s sid now l
    unfold updateActivity
    cases hf : s.sessions.find? (fun p => decide (p.1 = sid)) with
    | none => rfl
    | some pr =>
      dsimp only
      cases pr.2.timeoutHandle <;> rfl

theorem subscribe_notify_spec_witness :
    countNotify 5 (addSession (fun _ => false) (MgrState.mk [] [5] false 0) "s1" 0).2 = 1 ∧
    countNotify 5 (updateActivity (MgrState.mk [] [5] false 0) "s1" 0).2 = 0 := by
  refine ⟨?_, ?_⟩
  · exact ((subscribe_notify_spec.2.1) (fun _ => false) (MgrState.mk [] [5] false 0)
      "s1" 0 5 (by decide) (by decide)).1
  · exact (subscribe_notify_spec.2.2.2) (MgrState.mk [] [5] false 0) "s1" 0 5

/-- C10 counterexample: the immediate snapshot call made from inside
subscribe is not wrapped in try/catch in the source, so a listener that
throws there propagates the exception to the caller of subscribe, at the
concrete empty registry state — refuting the claim that every listener
invocation, including this one, is exception-guarded. -/
theorem subscribe_immediate_call_unguarded :
    (subscribeSession (fun _ => true) (MgrState.mk [] [] false 0) 7).2.2 =
      Except.error () := rfl

/-- C10 (amended): every listener invocation made from notifyListeners
and the removal-callback invocation are individually guarded — every
registered listener is notified regardless of other listeners throwing,
a throwing listener only adds an error log, and the state produced by
remove is independent of listener or callback throws — but the immediate
snapshot call inside subscribe is NOT guarded: its exception escapes to
the caller of subscribe exactly when that listener throws. -/
theorem listener_guard_spec :
    (∀ lt s l, l ∈ s.listeners → MEv.notify l (getAll s) ∈ notifyListeners lt s) ∧
    (∀ lt s l, l ∈ s.listeners → lt l = true →
      MEv.listenerError l ∈ notifyListeners lt s) ∧
    (∀ lt lt2 cbT cbT2 s sid,
      (removeSession lt cbT s sid).1 = (removeSession lt2 cbT2 s sid).1) ∧
    (∀ lt s l, (subscribeSession lt s l).2.2 =
      if lt l then Except.error () else Except.ok ()) := by
  refine ⟨?_, ?_, ?_, ?_⟩
  · intro lt s l hmem
    exact List.mem_flatMap.mpr ⟨l, hmem, by simp⟩
  · intro lt s l hmem hthrow
    exact List.mem_flatMap.mpr ⟨l, hmem, by simp [hthrow]⟩
  · intro lt lt2 cbT cbT2 s sid
    cases hf : s.sessions.find? (fun p => decide (p.1 = sid)) with
    | none =>
      rw [removeSession_eq_absent lt cbT s sid hf,
        removeSession_eq_absent lt2 cbT2 s sid hf]
    | some pr =>
      rw [removeSession_eq_present lt cbT s sid pr hf,
        removeSession_eq_present lt2 cbT2 s sid pr hf]
  · intro lt s l
    rfl

theorem listener_guard_spec_witness :
    MEv.notify 3 (getAll (MgrState.mk [] [3, 4] false 0)) ∈
      notifyListeners (fun x => x = 4) (MgrState.mk [] [3, 4] false 0) ∧
    MEv.listenerError 4 ∈
      notifyListeners (fun x => x = 4) (MgrState.mk [] [3, 4] false 0) := by
  refine ⟨?_, ?_⟩
  · exact listener_guard_spec.1 (fun x => x = 4) (MgrState.mk [] [3, 4] false 0) 3
      (by decide)
  · exact listener_guard_spec.2.1 (fun x => x = 4) (MgrState.mk [] [3, 4] false 0) 4
      (by decide) (by decide)

end SessionMgr

/-! ## Router and framer evaluation claims: C1, C3, C4, C6 -/

namespace Gateway

open SessionMgr

/-- C1 counterexample: a parsed request carrying an mcp-session-id header
value that is not a key of the (empty) session-transport map, but whose
path does not target the endpoint, is answered with the plain-text 404
response — the endpoint check runs before the unknown-session check, so
the claim fails as stated for every off-endpoint request. -/
theorem gatewayStep_unknown_session_404_counterexample :
    (gatewayStep (str "/mcp")
      (ParsedRequest.mk (str "POST") (some (str "/other"))
        [(str "mcp-session-id", str "deadbeef")] [])
      [] (MgrState.mk [] [] false 0) 0).1 = GateOut.respond 404 bodyNotFound ∧
    ¬ (GateOut.respond 404 bodyNotFound = GateOut.respond 409 body409) := by
  exact ⟨by decide, by decide⟩

/-- C1 (amended): for every parsed request whose path targets the
endpoint and that carries a NONEMPTY mcp-session-id header value that is
not a key of the session-transport map, the gateway responds with status
409 and exactly the structured JSON-RPC error body, does not invoke the
handler (the outcome is a direct response, not handled), and leaves both
the session-transport map and the SessionManager state unchanged. -/
theorem gatewayStep_unknown_session_409 (endpoint p sid : List Char)
    (req : ParsedRequest) (keys : List (List Char)) (mgr : MgrState) (now : Nat)
    (hp : req.path = some p) (hep : endpointMatch endpoint p = true)
    (hsid : jsGet req.headers (str "mcp-session-id") = some sid)
    (hne : ¬ (sid = [])) (hmem : ¬ (sid ∈ keys)) :
    gatewayStep endpoint req keys mgr now =
      (GateOut.respond 409 body409, keys, mgr) := by
  simp [gatewayStep, hp, hep, hsid, truthy, hne, hmem]

theorem gatewayStep_unknown_session_409_witness :
    gatewayStep (str "/mcp")
      (ParsedRequest.mk (str "POST") (some (str "/mcp"))
        [(str "mcp-session-id", str "deadbeef")] [])
      [str "other"] (MgrState.mk [] [] false 0) 0 =
      (GateOut.respond 409 body409, [str "other"], MgrState.mk [] [] false 0) :=
  gatewayStep_unknown_session_409 (str "/mcp") (str "/mcp") (str "deadbeef")
    (ParsedRequest.mk (str "POST") (some (str "/mcp"))
      [(str "mcp-session-id", str "deadbeef")] [])
    [str "other"] (MgrState.mk [] [] false 0) 0
    rfl (by decide) (by decide) (by decide) (by decide)

/-- Buffer whose content-length header value does not parse as a number. -/
def nanBuf : List Char := str "POST /mcp HTTP/1.1\r\ncontent-length: abc\r\n\r\n"

/-- C3 (code bug, evaluation at the failing input): a missing
content-length header does default to 0, but an unparsable value (abc)
yields NaN — modelled as `none`, not 0 — and at the failing buffer the
framing loop emits the request with an empty body WITHOUT advancing the
buffer (subarray applied to NaN coerces to index 0), so the loop
re-processes the same request forever instead of delimiting the request
with a zero-length body as the claim states. -/
theorem contentLength_unparsable_nan_bug :
    contentLengthOf [] = some 0 ∧
    contentLengthOf [(str "content-length", str "abc")] = none ∧
    ¬ (contentLengthOf [(str "content-length", str "abc")] = some 0) ∧
    (frameAll nanBuf).diverged = true ∧
    (frameAll nanBuf).rest = nanBuf ∧
    (frameAll nanBuf).reqs.map (fun r => r.body) = [[]] := by
  exact ⟨by decide, by decide, by decide, by decide, by decide, by decide⟩

/-- A GET whose headers are complete but which declares a body length. -/
def getWaitBuf : List Char := str "GET /mcp HTTP/1.1\r\ncontent-length: 5\r\n\r\n"

/-- A GET with a declared and fully buffered body. -/
def getBodyBuf : List Char := str "GET /mcp HTTP/1.1\r\ncontent-length: 2\r\n\r\nhi"

/-- C4 counterexample: a GET whose header block is fully buffered (the
separator is present at index 36) but which declares content-length 5
with no body bytes buffered is NOT emitted by the framer — it waits for
the declared body, refuting the claim that GET/HEAD requests are emitted
as soon as the headers are buffered. -/
theorem frameStep_get_waits_counterexample :
    findSub SEPSEQ getWaitBuf = some 36 ∧
    frameStep getWaitBuf = none := by
  exact ⟨by decide, by decide⟩

/-- C4 (amended): the framer's wait condition is independent of the
method — no request is emitted until the buffer holds body start +
content length bytes, even for GET/HEAD — but every emitted GET or HEAD
request carries no body in the constructed Request (the declared body
bytes are consumed from the buffer and dropped). -/
theorem frameStep_method_independent_wait (buf : List Char) :
    (frameStep buf = none ↔
      (findSub SEPSEQ buf = none ∨
        ∃ i e, findSub SEPSEQ buf = some i ∧
          (contentLengthOf (parseHead (buf.take i)).2.2).map
            (fun n => ((i + 4 : Nat) : Int) + n) = some e ∧
          (buf.length : Int) < e)) ∧
    (∀ req rest ng, frameStep buf = some (req, rest, ng) →
      (req.method = str "GET" ∨ req.method = str "HEAD") →
      requestInitBody req.method req.body = none) := by
  constructor
  · cases hfs : findSub SEPSEQ buf with
    | none => simp [frameStep, hfs]
    | some i =>
      cases hcl : contentLengthOf (parseHead (buf.take i)).2.2 with
      | none => simp [frameStep, hfs, hcl]
      | some n =>
        by_cases hw : (buf.length : Int) < ((i + 4 : Nat) : Int) + n
        · simp [frameStep, hfs, hcl, hw]
        · simp [frameStep, hfs, hcl, hw]
  · intro req rest ng hstep hm
    unfold requestInitBody
    rcases hm with h1 | h1 <;> simp [h1]

theorem frameStep_method_independent_wait_witness :
    requestInitBody (str "GET") (str "hi") = none ∧
    frameStep getWaitBuf = none := by
  constructor
  · exact (frameStep_method_independent_wait getBodyBuf).2
      (ParsedRequest.mk (str "GET") (some (str "/mcp"))
        [(str "content-length", str "2")] (str "hi")) [] false
      (by decide) (Or.inl rfl)
  · exact (frameStep_method_independent_wait getWaitBuf).1.mpr
      (Or.inr ⟨36, 45, by decide, by decide, by decide⟩)

/-- First pipelined request. -/
def reqABuf : List Char := str "GET /a HTTP/1.1\r\ncontent-length: 0\r\n\r\n"

/-- Second pipelined request. -/
def reqBBuf : List Char := str "GET /b HTTP/1.1\r\ncontent-length: 0\r\n\r\n"

/-- C6 (code bug): every data event starts a fresh invocation of
processHttpRequests, and the buffer is advanced past a framed request
before its handler is awaited; so when the two pipelined requests arrive
in separate chunks while the first handler is pending, a second
concurrent loop invocation frames and handles the second request, and
under the schedule in which the second handler resolves first its
response is written before the response to the first request — refuting
strict arrival-order processing.  For contrast, the same two requests
arriving in one chunk are processed by a single invocation strictly in
order. -/
theorem pipelined_responses_out_of_order :
    (execTrace [LoopEv.dataArrival reqABuf, LoopEv.dataArrival reqBBuf,
        LoopEv.resume 1, LoopEv.resume 0]).writes =
      [some (str "/b"), some (str "/a")] ∧
    (execTrace [LoopEv.dataArrival (reqABuf ++ reqBBuf),
        LoopEv.resume 0, LoopEv.resume 0]).writes =
      [some (str "/a"), some (str "/b")] := by
  exact ⟨by decide, by decide⟩

end Gateway

/-! ## Chunk-boundary independence machinery: claim C5 -/

namespace Gateway

lemma startsWith_length (p : List Char) : ∀ l, startsWithList p l = true →
    p.length ≤ l.length := by
  induction p with
  | nil => intro l _; exact Nat.zero_le _
  | cons a ps ih =>
    intro l h
    cases l with
    | nil => simp [startsWithList] at h
    | cons x xs =>
      simp only [startsWithList, Bool.and_eq_true] at h
      exact Nat.succ_le_succ (ih xs h.2)

lemma startsWith_append (p : List Char) : ∀ l c, startsWithList p l = true →
    startsWithList p (l ++ c) = true := by
  induction p with
  | nil => intro l c _; rfl
  | cons a ps ih =>
    intro l c h
    cases l with
    | nil => simp [startsWithList] at h
    | cons x xs =>
      simp only [List.cons_append, startsWithList, Bool.and_eq_true] at h ⊢
      exact ⟨h.1, ih xs c h.2⟩

lemma startsWith_of_append (p : List Char) : ∀ l c,
    startsWithList p (l ++ c) = true → p.length ≤ l.length →
    startsWithList p l = true := by
  induction p with
  | nil => intro l c _ _; rfl
  | cons a ps ih =>
    intro l c h hlen
    cases l with
    | nil => simp at hlen
    | cons x xs =>
      simp only [List.cons_append, startsWithList, Bool.and_eq_true] at h ⊢
      exact ⟨h.1, ih xs c h.2 (Nat.le_of_succ_le_succ hlen)⟩

lemma findSub_bound (pat : List Char) : ∀ (l : List Char) (i : Nat),
    findSub pat l = some i → i + pat.length ≤ l.length := by
  intro l
  induction l with
  | nil => intro i h; simp [findSub] at h
  | cons x xs ih =>
    intro i h
    simp only [findSub] at h
    by_cases hpre : startsWithList pat (x :: xs) = true
    · rw [if_pos hpre] at h
      have h0 : i = 0 := by
        cases h
        rfl
      subst h0
      simpa using startsWith_length pat (x :: xs) hpre
    · rw [if_neg hpre] at h
      cases hfs : findSub pat xs with
      | none => rw [hfs] at h; cases h
      | some j =>
        rw [hfs, Option.map_some'] at h
        have hji : j + 1 = i := by
          cases h
          rfl
        have hb := ih j hfs
        simp only [List.length_cons]
        omega

lemma findSub_append (pat : List Char) : ∀ (l c : List Char) (i : Nat),
    findSub pat l = some i → findSub pat (l ++ c) = some i := by
  intro l
  induction l with
  | nil => intro c i h; simp [findSub] at h
  | cons x xs ih =>
    intro c i h
    have hul : findSub pat (x :: xs) =
        (if startsWithList pat (x :: xs) = true then some 0
         else (findSub pat xs).map (fun k => k + 1)) := rfl
    have hur : findSub pat ((x :: xs) ++ c) =
        (if startsWithList pat (x :: (xs ++ c)) = true then some 0
         else (findSub pat (xs ++ c)).map (fun k => k + 1)) := rfl
    rw [hul] at h
    rw [hur]
    by_cases hpre : startsWithList pat (x :: xs) = true
    · rw [if_pos hpre] at h
      have hpre2 : startsWithList pat (x :: (xs ++ c)) = true :=
        startsWith_append pat (x :: xs) c hpre
      rw [if_pos hpre2]
      exact h
    · rw [if_neg hpre] at h
      cases hfs : findSub pat xs with
      | none => rw [hfs] at h; cases h
      | some j =>
        rw [hfs, Option.map_some'] at h
        have hb := findSub_bound pat xs j hfs
        have hpre2 : ¬ (startsWithList pat (x :: (xs ++ c)) = true) := by
          intro hc
          have hlen : pat.length ≤ (x :: xs).length := by
            simp only [List.length_cons]
            omega
          exact hpre (startsWith_of_append pat (x :: xs) c hc hlen)
        rw [if_neg hpre2, ih c j hfs, Option.map_some']
        exact h

lemma clampRel_nonneg (e : Int) (len : Nat) (h : 0 ≤ e) :
    clampRel e len = min e.toNat len := by
  unfold clampRel
  rw [if_neg (by omega)]

lemma clampRel_zero (len : Nat) : clampRel 0 len = 0 := by
  unfold clampRel
  rw [if_neg (by omega)]
  simp

lemma jsSubarray_end_zero (l : List Char) (s : Int) : jsSubarray l s 0 = [] := by
  unfold jsSubarray
  rw [clampRel_zero]
  simp

lemma jsSubarrayFrom_zero (l : List Char) : jsSubarrayFrom l 0 = l := by
  unfold jsSubarrayFrom
  rw [clampRel_zero]
  rfl

lemma jsSubarray_nonneg_append (b c : List Char) (s e : Int)
    (hs : 0 ≤ s) (hsl : s.toNat ≤ b.length) (he : 0 ≤ e) (hel : e.toNat ≤ b.length) :
    jsSubarray (b ++ c) s e = jsSubarray b s e := by
  unfold jsSubarray
  rw [clampRel_nonneg s _ hs, clampRel_nonneg e _ he,
    clampRel_nonneg s _ hs, clampRel_nonneg e _ he, List.length_append,
    Nat.min_eq_left hsl, Nat.min_eq_left hel,
    Nat.min_eq_left (Nat.le_trans hsl (Nat.le_add_right _ _)),
    Nat.min_eq_left (Nat.le_trans hel (Nat.le_add_right _ _)),
    List.drop_append_of_le_length hsl]
  have hle : e.toNat - s.toNat ≤ (b.drop s.toNat).length := by
    rw [List.length_drop]
    omega
  rw [List.take_append_of_le_length hle]

lemma jsSubarrayFrom_nonneg_append (b c : List Char) (e : Int)
    (he : 0 ≤ e) (hel : e.toNat ≤ b.length) :
    jsSubarrayFrom (b ++ c) e = jsSubarrayFrom b e ++ c := by
  unfold jsSubarrayFrom
  rw [clampRel_nonneg e _ he, clampRel_nonneg e _ he, List.length_append,
    Nat.min_eq_left hel, Nat.min_eq_left (Nat.le_trans hel (Nat.le_add_right _ _))]
  exact List.drop_append_of_le_length hel

end Gateway

namespace Gateway

/-- One framing iteration, characterized once the separator index is
known. -/
lemma frameStep_char (b : List Char) (i : Nat)
    (hfs : findSub SEPSEQ b = some i) :
    frameStep b =
      (match (contentLengthOf (parseHead (b.take i)).2.2).map
          (fun n => ((i + 4 : Nat) : Int) + n) with
        | some e =>
          if (b.length : Int) < e then none
          else some (⟨(parseHead (b.take i)).1, (parseHead (b.take i)).2.1,
              (parseHead (b.take i)).2.2, jsSubarray b ((i + 4 : Nat) : Int) e⟩,
            jsSubarrayFrom b e, decide (e < 0))
        | none =>
          some (⟨(parseHead (b.take i)).1, (parseHead (b.take i)).2.1,
              (parseHead (b.take i)).2.2, jsSubarray b ((i + 4 : Nat) : Int) 0⟩,
            jsSubarrayFrom b 0, false)) := by
  unfold frameStep
  rw [hfs]

lemma frameStep_rest_le (b : List Char) (req : ParsedRequest) (rest : List Char)
    (ng : Bool) (h : frameStep b = some (req, rest, ng)) : rest.length ≤ b.length := by
  cases hfs : findSub SEPSEQ b with
  | none =>
    unfold frameStep at h
    rw [hfs] at h
    cases h
  | some i =>
    rw [frameStep_char b i hfs] at h
    cases hcl : (contentLengthOf (parseHead (b.take i)).2.2).map
        (fun n => ((i + 4 : Nat) : Int) + n) with
    | none =>
      simp only [hcl, Option.some.injEq, Prod.mk.injEq] at h
      obtain ⟨-, hrest, -⟩ := h
      rw [← hrest, jsSubarrayFrom_zero]
    | some e =>
      by_cases hw : (b.length : Int) < e
      · simp only [hcl, if_pos hw] at h
        cases h
      · simp only [hcl, if_neg hw, Option.some.injEq, Prod.mk.injEq] at h
        obtain ⟨-, hrest, -⟩ := h
        rw [← hrest]
        unfold jsSubarrayFrom
        rw [List.length_drop]
        omega

lemma frameStep_stable (b c : List Char) (req : ParsedRequest) (rest : List Char)
    (h : frameStep b = some (req, rest, false)) :
    frameStep (b ++ c) = some (req, rest ++ c, false) := by
  cases hfs : findSub SEPSEQ b with
  | none =>
    unfold frameStep at h
    rw [hfs] at h
    cases h
  | some i =>
    have hb4 : i + 4 ≤ b.length := by simpa using findSub_bound SEPSEQ b i hfs
    have hfs2 := findSub_append SEPSEQ b c i hfs
    rw [frameStep_char b i hfs] at h
    rw [frameStep_char (b ++ c) i hfs2,
      List.take_append_of_le_length (show i ≤ b.length by omega)]
    cases hcl : (contentLengthOf (parseHead (b.take i)).2.2).map
        (fun n => ((i + 4 : Nat) : Int) + n) with
    | none =>
      simp only [hcl, Option.some.injEq, Prod.mk.injEq] at h ⊢
      rw [jsSubarray_end_zero, jsSubarrayFrom_zero] at h
      obtain ⟨hreq, hrest, -⟩ := h
      rw [jsSubarray_end_zero, jsSubarrayFrom_zero]
      exact ⟨hreq, by rw [← hrest], trivial⟩
    | some e =>
      by_cases hw : (b.length : Int) < e
      · simp only [hcl, if_pos hw] at h
        cases h
      · simp only [hcl, if_neg hw, Option.some.injEq, Prod.mk.injEq] at h
        obtain ⟨hreq, hrest, hng⟩ := h
        have hepos : 0 ≤ e := by
          have := of_decide_eq_false hng
          omega
        have heln : e.toNat ≤ b.length := by omega
        have hw2 : ¬ ((((b ++ c).length : Nat) : Int) < e) := by
          rw [List.length_append]
          push_cast
          omega
        simp only [hcl, if_neg hw2, Option.some.injEq, Prod.mk.injEq]
        rw [jsSubarray_nonneg_append b c _ e (by omega) (by omega) hepos heln,
          jsSubarrayFrom_nonneg_append b c e hepos heln]
        exact ⟨hreq, by rw [← hrest], hng⟩

lemma frameStep_neg_stable (b c : List Char) (req : ParsedRequest) (rest : List Char)
    (h : frameStep b = some (req, rest, true)) :
    ∃ req2 rest2, frameStep (b ++ c) = some (req2, rest2, true) := by
  cases hfs : findSub SEPSEQ b with
  | none =>
    unfold frameStep at h
    rw [hfs] at h
    cases h
  | some i =>
    have hb4 : i + 4 ≤ b.length := by simpa using findSub_bound SEPSEQ b i hfs
    have hfs2 := findSub_append SEPSEQ b c i hfs
    rw [frameStep_char b i hfs] at h
    rw [frameStep_char (b ++ c) i hfs2,
      List.take_append_of_le_length (show i ≤ b.length by omega)]
    cases hcl : (contentLengthOf (parseHead (b.take i)).2.2).map
        (fun n => ((i + 4 : Nat) : Int) + n) with
    | none =>
      simp only [hcl, Option.some.injEq, Prod.mk.injEq] at h
      obtain ⟨-, -, hng⟩ := h
      cases hng
    | some e =>
      by_cases hw : (b.length : Int) < e
      · simp only [hcl, if_pos hw] at h
        cases h
      · simp only [hcl, if_neg hw, Option.some.injEq, Prod.mk.injEq] at h
        obtain ⟨-, -, hng⟩ := h
        have heneg : e < 0 := of_decide_eq_true hng
        have hw2 : ¬ ((((b ++ c).length : Nat) : Int) < e) := by
          rw [List.length_append]
          push_cast
          omega
        simp only [hcl, if_neg hw2, Option.some.injEq, Prod.mk.injEq]
        refine ⟨_, _, rfl, rfl, ?_⟩
        rw [hng]

end Gateway

namespace Gateway

lemma frameAllF_congr : ∀ (f1 f2 : Nat) (b : List Char), b.length < f1 →
    b.length < f2 → frameAllF f1 b = frameAllF f2 b := by
  intro f1
  induction f1 with
  | zero => intro f2 b h1 _; exact absurd h1 (Nat.not_lt_zero _)
  | succ f ih =>
    intro f2 b h1 h2
    cases f2 with
    | zero => exact absurd h2 (Nat.not_lt_zero _)
    | succ g =>
      simp only [frameAllF]
      cases hstep : frameStep b with
      | none => rfl
      | some t =>
        obtain ⟨req, rest, ng⟩ := t
        dsimp only
        by_cases hlt : rest.length < b.length
        · rw [if_pos hlt, if_pos hlt, ih g rest (by omega) (by omega)]
        · rw [if_neg hlt, if_neg hlt]

lemma frameAll_unfold (b : List Char) :
    frameAll b =
      (match frameStep b with
        | none => ⟨[], b, false, false⟩
        | some (req, rest, ng) =>
          if rest.length < b.length then
            ⟨req :: (frameAll rest).reqs, (frameAll rest).rest,
              (frameAll rest).diverged, ng || (frameAll rest).negEnd⟩
          else ⟨[req], b, true, ng⟩) := by
  show frameAllF (b.length + 1) b = _
  simp only [frameAllF]
  cases hstep : frameStep b with
  | none => rfl
  | some t =>
    obtain ⟨req, rest, ng⟩ := t
    dsimp only
    by_cases hlt : rest.length < b.length
    · rw [if_pos hlt, if_pos hlt,
        frameAllF_congr b.length (rest.length + 1) rest (by omega) (by omega)]
      rfl
    · rw [if_neg hlt, if_neg hlt]

lemma frameAll_step_none (b : List Char) (hstep : frameStep b = none) :
    frameAll b = ⟨[], b, false, false⟩ := by
  rw [frameAll_unfold b]
  simp only [hstep]

lemma frameAll_step_consuming (b : List Char) (req : ParsedRequest)
    (rest : List Char) (ng : Bool) (hstep : frameStep b = some (req, rest, ng))
    (hlt : rest.length < b.length) :
    frameAll b = ⟨req :: (frameAll rest).reqs, (frameAll rest).rest,
      (frameAll rest).diverged, ng || (frameAll rest).negEnd⟩ := by
  rw [frameAll_unfold b]
  simp only [hstep]
  rw [if_pos hlt]

lemma frameAll_step_stuck (b : List Char) (req : ParsedRequest)
    (rest : List Char) (ng : Bool) (hstep : frameStep b = some (req, rest, ng))
    (hnlt : ¬ rest.length < b.length) :
    frameAll b = ⟨[req], b, true, ng⟩ := by
  rw [frameAll_unfold b]
  simp only [hstep]
  rw [if_neg hnlt]

lemma negEnd_mono : ∀ (n : Nat) (b c : List Char), b.length ≤ n →
    (frameAll (b ++ c)).negEnd = false → (frameAll b).negEnd = false := by
  intro n
  induction n with
  | zero =>
    intro b c hb _
    have hb0 : b = [] := List.length_eq_zero.mp (Nat.le_zero.mp hb)
    subst hb0
    rfl
  | succ n ih =>
    intro b c hb h
    cases hstep : frameStep b with
    | none => rw [frameAll_step_none b hstep]
    | some t =>
      obtain ⟨req, rest, ng⟩ := t
      cases hng : ng with
      | true =>
        rw [hng] at hstep
        rcases frameStep_neg_stable b c req rest hstep with ⟨req2, rest2, hstep2⟩
        by_cases hlt2 : rest2.length < (b ++ c).length
        · rw [frameAll_step_consuming (b ++ c) req2 rest2 true hstep2 hlt2] at h
          simp at h
        · rw [frameAll_step_stuck (b ++ c) req2 rest2 true hstep2 hlt2] at h
          simp at h
      | false =>
        rw [hng] at hstep
        have hstep2 := frameStep_stable b c req rest hstep
        have hrle := frameStep_rest_le b req rest false hstep
        by_cases hlt : rest.length < b.length
        · have hlt2 : (rest ++ c).length < (b ++ c).length := by
            rw [List.length_append, List.length_append]
            omega
          rw [frameAll_step_consuming b req rest false hstep hlt]
          rw [frameAll_step_consuming (b ++ c) req (rest ++ c) false hstep2 hlt2] at h
          simp only [Bool.false_or] at h ⊢
          exact ih rest c (by omega) h
        · rw [frameAll_step_stuck b req rest false hstep hlt]

lemma feed_frameAll : ∀ (n : Nat) (b c : List Char), b.length ≤ n →
    (frameAll (b ++ c)).negEnd = false →
    feedRes (frameAll b) c = frameAll (b ++ c) := by
  intro n
  induction n with
  | zero =>
    intro b c hb _
    have hb0 : b = [] := List.length_eq_zero.mp (Nat.le_zero.mp hb)
    subst hb0
    have h0 : frameAll [] = ⟨[], [], false, false⟩ := rfl
    rw [h0]
    simp [feedRes]
  | succ n ih =>
    intro b c hb h
    have hmono : (frameAll b).negEnd = false := negEnd_mono (n + 1) b c hb h
    cases hstep : frameStep b with
    | none =>
      rw [frameAll_step_none b hstep]
      simp [feedRes]
    | some t =>
      obtain ⟨req, rest, ng⟩ := t
      have hng : ng = false := by
        cases hngc : ng with
        | false => rfl
        | true =>
          rw [hngc] at hstep
          have hb2 : (frameAll b).negEnd = true := by
            by_cases hlt : rest.length < b.length
            · rw [frameAll_step_consuming b req rest true hstep hlt]
              rfl
            · rw [frameAll_step_stuck b req rest true hstep hlt]
          rw [hb2] at hmono
          cases hmono
      rw [hng] at hstep
      have hstable := frameStep_stable b c req rest hstep
      have hrle := frameStep_rest_le b req rest false hstep
      by_cases hlt : rest.length < b.length
      · have hlt2 : (rest ++ c).length < (b ++ c).length := by
          rw [List.length_append, List.length_append]
          omega
        have hneg2 : (frameAll (rest ++ c)).negEnd = false := by
          rw [frameAll_step_consuming (b ++ c) req (rest ++ c) false hstable hlt2] at h
          simpa using h
        have hih := ih rest c (by omega) hneg2
        rw [frameAll_step_consuming b req rest false hstep hlt,
          frameAll_step_consuming (b ++ c) req (rest ++ c) false hstable hlt2, ← hih]
        by_cases hdiv : (frameAll rest).diverged = true
        · simp [feedRes, hdiv]
        · simp [feedRes, hdiv, List.cons_append, Bool.or_assoc]
      · have hlt2 : ¬ ((rest ++ c).length < (b ++ c).length) := by
          rw [List.length_append, List.length_append]
          omega
        rw [frameAll_step_stuck b req rest false hstep hlt,
          frameAll_step_stuck (b ++ c) req (rest ++ c) false hstable hlt2]
        simp [feedRes]

lemma frameChunks_go : ∀ (chunks : List (List Char)) (b : List Char),
    (frameAll (b ++ chunks.flatten)).negEnd = false →
    List.foldl feedRes (frameAll b) chunks = frameAll (b ++ chunks.flatten) := by
  intro chunks
  induction chunks with
  | nil =>
    intro b h
    simp
  | cons ch rest ih =>
    intro b h
    have hjoin : b ++ (ch :: rest).flatten = (b ++ ch) ++ rest.flatten := by
      rw [List.flatten_cons, ← List.append_assoc]
    rw [hjoin] at h
    have h1 : (frameAll (b ++ ch)).negEnd = false :=
      negEnd_mono (b ++ ch).length (b ++ ch) rest.flatten (Nat.le_refl _) h
    rw [List.foldl_cons, feed_frameAll b.length b ch (Nat.le_refl _) h1,
      ih (b ++ ch) h, hjoin]

/-- C5 (amended): for every way of splitting a byte stream into chunks,
the framed request sequence, the remaining buffer and the divergence
flag are identical to single-chunk arrival, PROVIDED no framed request's
computed request end (body start + parsed content-length) is negative;
a sufficiently negative content-length breaks the property because
subarray interprets negative indices relative to the current buffer
length, which depends on the chunking. -/
theorem frameChunks_eq_frameAll (chunks : List (List Char))
    (h : (frameAll chunks.flatten).negEnd = false) :
    frameChunks chunks = frameAll chunks.flatten := by
  have h0 : frameAll [] = ⟨[], [], false, false⟩ := rfl
  unfold frameChunks
  rw [← h0]
  have hgo := frameChunks_go chunks [] (by simpa using h)
  simpa using hgo

/-- First chunk of the C5 counterexample: negative content-length. -/
def negChunkA : List Char := str "GET /a HTTP/1.1\r\ncontent-length:-99\r\n\r\n"

/-- Second chunk of the C5 counterexample. -/
def negChunkB : List Char := str "POST /b HTTP/1.1\r\ncontent-length: 0\r\n\r\n"

/-- C5 counterexample: with content-length -99 the computed request end
is negative, and Buffer.subarray interprets it relative to the current
buffer end; delivering the two requests in one chunk yields three parsed
requests and a terminating loop, while delivering them as two chunks
yields one parsed request and a non-consuming (divergent) loop — the
parsed request sequences differ, refuting chunk-boundary independence as
stated. -/
theorem frameChunks_negative_length_counterexample :
    (frameChunks [negChunkA, negChunkB]).reqs.length = 1 ∧
    (frameAll (List.flatten [negChunkA, negChunkB])).reqs.length = 3 ∧
    ¬ ((frameChunks [negChunkA, negChunkB]).reqs =
      (frameAll (List.flatten [negChunkA, negChunkB])).reqs) := by
  exact ⟨by decide, by decide, by decide⟩

theorem frameChunks_eq_frameAll_witness :
    (frameAll (List.flatten
      [str "GET /a HTT", str "P/1.1\r\ncontent-length: 2\r\n\r\nhi", reqBBuf])).negEnd
      = false ∧
    frameChunks [str "GET /a HTT", str "P/1.1\r\ncontent-length: 2\r\n\r\nhi", reqBBuf] =
      frameAll (List.flatten
        [str "GET /a HTT", str "P/1.1\r\ncontent-length: 2\r\n\r\nhi", reqBBuf]) := by
  refine ⟨by decide, frameChunks_eq_frameAll _ (by decide)⟩

end Gateway
